import Mathlib

/-!
# InventoryService — shallow embedding and verification

A shallow embedding of the inventory ledger of `Inventory/models.py` and
`Inventory/views.py` (Django REST): the `Inventory` record, the
`reserve` / `release` / `commit` / `availability` / `update_stock`
endpoints of `InventoryViewSet`, and a small interleaving model of the
unguarded read-check-write inside `reserve`.

Request-body values (`request.data.get(...)`) are modelled by `PyVal`
(absent/None, int, float — as an exact rational, every payload float is
one —, string), together with Python's truthiness and `int(...)`
coercion, since the views lean on both.
-/

namespace InventoryService

/-- Exceptions `int(...)` can raise. An uncaught one aborts the request. -/
inductive PyErr where
  | valueError
  | typeError
deriving DecidableEq, Repr

deriving instance DecidableEq for Except

/-- A JSON/request value as the views see it: `pyNone` is both an absent
key's `None` default and an explicit `null`. A float is carried as the
exact rational `num / den` it denotes (every payload float is one);
`den` is meant positive. -/
inductive PyVal where
  | pyNone
  | int (n : Int)
  | float (num : Int) (den : Nat)
  | str (s : String)
deriving DecidableEq, Repr

/-- Python truthiness, used by `if not product_id or not shop_id ...`
and by `request.data.get("quantity", 0) or 0`. -/
def PyVal.truthy : PyVal → Bool
  | .pyNone => false
  | .int n => n ≠ 0
  | .float num _ => num ≠ 0
  | .str s => s ≠ ""

/-- Digits of a decimal numeral, most significant first; `none` on a
non-digit character. -/
def decDigits (cs : List Char) : Option Nat :=
  cs.foldl
    (fun acc c =>
      match acc with
      | Option.none => Option.none
      | some n => if c.isDigit then some (n * 10 + (c.toNat - 48)) else Option.none)
    (some 0)

/-- Strip leading and trailing whitespace from a character list. -/
def stripSpaces (cs : List Char) : List Char :=
  ((cs.dropWhile Char.isWhitespace).reverse.dropWhile Char.isWhitespace).reverse

/-- Python `int(s)` on a string: surrounding whitespace is stripped, an
optional sign precedes a nonempty digit run; anything else raises
`ValueError`. -/
def pyIntOfString (s : String) : Except PyErr Int :=
  match stripSpaces s.toList with
  | [] => .error .valueError
  | '-' :: rest =>
      if rest.isEmpty then .error .valueError
      else
        match decDigits rest with
        | some n => .ok (-(n : Int))
        | Option.none => .error .valueError
  | '+' :: rest =>
      if rest.isEmpty then .error .valueError
      else
        match decDigits rest with
        | some n => .ok (n : Int)
        | Option.none => .error .valueError
  | cs =>
      match decDigits cs with
      | some n => .ok (n : Int)
      | Option.none => .error .valueError

/-- Python `int(v)`: identity on ints, truncation toward zero on floats,
string parsing per `pyIntOfString`, `TypeError` on `None`. -/
def pyInt : PyVal → Except PyErr Int
  | .pyNone => .error .typeError
  | .int n => .ok n
  | .float num den => .ok (num.tdiv (den : Int))
  | .str s => pyIntOfString s

/-- The `x or 0` in `int(request.data.get("quantity", 0) or 0)`. -/
def orZero (v : PyVal) : PyVal :=
  if v.truthy then v else .int 0

/-- The `Inventory` model (models.py): per-(product_id, shop_id) ledger
record. `meta` and `updated_at` carry no behaviour in the verified
operations and are omitted. Django `IntegerField`s are signed ints. -/
structure Inventory where
  product_id : Int
  shop_id : Int
  stock : Int
  reserved : Int
  threshold : Int
deriving DecidableEq, Repr

/-- `Inventory.available` (models.py line 16-18):
`max(self.stock - self.reserved, 0)`. -/
def Inventory.available (inv : Inventory) : Int :=
  max (inv.stock - inv.reserved) 0

/-- Whether a request value matches a stored integer id, as the ORM
filter `product_id=value` compares them. -/
def PyVal.eqInt : PyVal → Int → Bool
  | .int n, m => n = m
  | _, _ => false

/-- The row filter `product_id=pid, shop_id=sid`. -/
def keyPred (pid sid : PyVal) (r : Inventory) : Bool :=
  pid.eqInt r.product_id && sid.eqInt r.shop_id

/-- `Inventory.objects.filter(product_id=pid, shop_id=sid).first()` over
the ledger store, modelled as a list of records. -/
def findInv (store : List Inventory) (pid sid : PyVal) : Option Inventory :=
  store.find? (keyPred pid sid)

/-- `inv.save()`: write the row back; with the `unique_together`
constraint the record overwrites the row holding its key. -/
def saveInv (store : List Inventory) (inv : Inventory) : List Inventory :=
  store.map (fun r =>
    if r.product_id = inv.product_id ∧ r.shop_id = inv.shop_id then inv else r)

/-- Outcome of a reserve/release/commit request: 200 with the record,
`ValidationError` (400), `NotFound` (404), the two insufficiency
rejections (400), or an uncaught exception (500). -/
inductive RRes where
  | ok (inv : Inventory)
  | invalidArgument
  | notFound
  | insufficientAvailability
  | insufficientReserved
  | uncaught (e : PyErr)
deriving DecidableEq, Repr

/-- `InventoryViewSet.reserve` (views.py lines 73-93). The quantity
coercion `int(request.data.get("quantity", 0) or 0)` runs before the
argument check, so its exception escapes uncaught. -/
def reserve (store : List Inventory) (product_id shop_id quantity : PyVal) :
    RRes × List Inventory :=
  match pyInt (orZero quantity) with
  | .error e => (.uncaught e, store)
  | .ok qty =>
      if ¬ product_id.truthy ∨ ¬ shop_id.truthy ∨ qty ≤ 0 then
        (.invalidArgument, store)
      else
        match findInv store product_id shop_id with
        | Option.none => (.notFound, store)
        | some inv =>
            if inv.available < qty then (.insufficientAvailability, store)
            else
              let inv2 := { inv with reserved := inv.reserved + qty }
              (.ok inv2, saveInv store inv2)

/-- `InventoryViewSet.release` (views.py lines 95-113). -/
def release (store : List Inventory) (product_id shop_id quantity : PyVal) :
    RRes × List Inventory :=
  match pyInt (orZero quantity) with
  | .error e => (.uncaught e, store)
  | .ok qty =>
      if ¬ product_id.truthy ∨ ¬ shop_id.truthy ∨ qty ≤ 0 then
        (.invalidArgument, store)
      else
        match findInv store product_id shop_id with
        | Option.none => (.notFound, store)
        | some inv =>
            let inv2 := { inv with reserved := max (inv.reserved - qty) 0 }
            (.ok inv2, saveInv store inv2)

/-- `InventoryViewSet.commit` (views.py lines 115-137). -/
def commit (store : List Inventory) (product_id shop_id quantity : PyVal) :
    RRes × List Inventory :=
  match pyInt (orZero quantity) with
  | .error e => (.uncaught e, store)
  | .ok qty =>
      if ¬ product_id.truthy ∨ ¬ shop_id.truthy ∨ qty ≤ 0 then
        (.invalidArgument, store)
      else
        match findInv store product_id shop_id with
        | Option.none => (.notFound, store)
        | some inv =>
            if inv.reserved < qty then (.insufficientReserved, store)
            else
              let inv2 := { inv with reserved := inv.reserved - qty,
                                     stock := max (inv.stock - qty) 0 }
              (.ok inv2, saveInv store inv2)

/-- Outcome of the read-only `availability` endpoint. -/
inductive AvRes where
  | invalidArgument
  | triple (available stock reserved : Int)
deriving DecidableEq, Repr

/-- `InventoryViewSet.availability` (views.py lines 140-153): zeros when
no record exists, else `inv.available()`, `inv.stock`, `inv.reserved`. -/
def availabilityView (store : List Inventory) (product_id shop_id : PyVal) : AvRes :=
  if ¬ product_id.truthy ∨ ¬ shop_id.truthy then .invalidArgument
  else
    match findInv store product_id shop_id with
    | Option.none => .triple 0 0 0
    | some inv => .triple inv.available inv.stock inv.reserved

/-- Outcome of `update_stock`: 200 with the record, or
`ValidationError` on a non-coercible field. -/
inductive UpRes where
  | ok (inv : Inventory)
  | invalidArgument
deriving DecidableEq, Repr

/-- The threshold half of `update_stock`: `int(request.data["threshold"])`
with `ValueError`/`TypeError` caught as `ValidationError`. -/
def applyThreshold (inv : Inventory) : Option PyVal → UpRes
  | Option.none => .ok inv
  | some v =>
      match pyInt v with
      | .error _ => .invalidArgument
      | .ok t => .ok { inv with threshold := t }

/-- `InventoryViewSet.update_stock` (views.py lines 51-70) on the record
the lookup found: set `stock` and/or `threshold` from the body and save.
`reserved` is never touched and no invariant is re-checked. -/
def update_stock (inv : Inventory) (stockParam thresholdParam : Option PyVal) : UpRes :=
  match stockParam with
  | Option.none => applyThreshold inv thresholdParam
  | some v =>
      match pyInt v with
      | .error _ => .invalidArgument
      | .ok s => applyThreshold { inv with stock := s } thresholdParam

/-! ## Interleaving model of concurrent `reserve` calls

Each in-flight `reserve` call on one record performs a database read
(`filter(...).first()`) and later a write (`inv.save()`); the
availability check and the increment use only the thread-local copy
taken at the read, so a thread is two atomic steps: read, then
check-and-write. Nothing in views.py serializes the two steps of one
call against steps of another. -/

/-- The progress of one in-flight `reserve(q)` call. -/
inductive TState where
  | start
  | readDone (loc : Inventory)
  | finished (success : Bool)
deriving DecidableEq, Repr

/-- One step of one `reserve(q)` call against the shared row `db`:
first the read, then the check against the local copy followed by the
full-row `save()` on success. -/
def reserveStep (q : Int) (db : Inventory) : TState → Inventory × TState
  | .start => (db, .readDone db)
  | .readDone loc =>
      if loc.available < q then (db, .finished false)
      else ({ loc with reserved := loc.reserved + q }, .finished true)
  | .finished b => (db, .finished b)

/-- Run a schedule: at each tick the named thread takes its next step. -/
def runSched (q : Int) : List Nat → Inventory × List TState → Inventory × List TState
  | [], st => st
  | i :: rest, (db, ts) =>
      match ts.get? i with
      | Option.none => runSched q rest (db, ts)
      | some t =>
          let r := reserveStep q db t
          runSched q rest (r.1, ts.set i r.2)

/-- How many of the calls returned success. -/
def successes (ts : List TState) : Nat :=
  ts.countP (fun t => decide (t = .finished true))

/-! ## Sequential call sequences -/

/-- One engine call with arbitrary request-body arguments. -/
inductive Call where
  | callReserve (pid sid qv : PyVal)
  | callRelease (pid sid qv : PyVal)
  | callCommit (pid sid qv : PyVal)
deriving DecidableEq, Repr

/-- The store after one call (errors leave it untouched: no `save()`
happens on any rejection path). -/
def applyCall (store : List Inventory) : Call → List Inventory
  | .callReserve p s q => (reserve store p s q).2
  | .callRelease p s q => (release store p s q).2
  | .callCommit p s q => (commit store p s q).2

/-- Invariant (1) of the spec: `0 ≤ reserved ≤ stock` (whence
`stock ≥ 0`). -/
def Invariant (inv : Inventory) : Prop :=
  0 ≤ inv.reserved ∧ inv.reserved ≤ inv.stock

instance (inv : Inventory) : Decidable (Invariant inv) := by
  unfold Invariant; infer_instance

/-! ## Basic lemmas -/

theorem pyInt_orZero_int (q : Int) : pyInt (orZero (.int q)) = .ok q := by
  by_cases h : q = 0 <;> simp [orZero, PyVal.truthy, pyInt, h]

theorem mem_of_findInv {store : List Inventory} {pid sid : PyVal} {inv : Inventory}
    (hf : findInv store pid sid = some inv) : inv ∈ store :=
  List.mem_of_find?_eq_some hf

theorem invariant_saveInv {store : List Inventory} {inv2 : Inventory}
    (h : ∀ r ∈ store, Invariant r) (h2 : Invariant inv2) :
    ∀ r ∈ saveInv store inv2, Invariant r := by
  intro r hr
  simp only [saveInv, List.mem_map] at hr
  obtain ⟨a, ha, hEq⟩ := hr
  by_cases hc : a.product_id = inv2.product_id ∧ a.shop_id = inv2.shop_id
  · rw [if_pos hc] at hEq
    exact hEq ▸ h2
  · rw [if_neg hc] at hEq
    exact hEq ▸ h a ha

theorem findInv_saveInv {pid sid : PyVal} {inv inv2 : Inventory}
    (hp : inv2.product_id = inv.product_id) (hs : inv2.shop_id = inv.shop_id) :
    ∀ store : List Inventory, findInv store pid sid = some inv →
      findInv (saveInv store inv2) pid sid = some inv2 := by
  intro store
  induction store with
  | nil => intro hf; simp [findInv] at hf
  | cons a rest ih =>
    intro hf
    simp only [findInv, saveInv, List.map_cons] at hf ⊢
    by_cases hpa : keyPred pid sid a = true
    · rw [List.find?_cons_of_pos _ hpa] at hf
      have hinv : a = inv := by injection hf
      subst hinv
      rw [if_pos ⟨hp.symm, hs.symm⟩]
      apply List.find?_cons_of_pos
      unfold keyPred at hpa ⊢
      rw [hp, hs]
      exact hpa
    · rw [List.find?_cons_of_neg _ hpa] at hf
      by_cases hc : a.product_id = inv2.product_id ∧ a.shop_id = inv2.shop_id
      · rw [if_pos hc]
        have hpa2 : ¬ keyPred pid sid inv2 = true := by
          unfold keyPred at hpa ⊢
          rw [← hc.1, ← hc.2]
          exact hpa
        rw [List.find?_cons_of_neg _ hpa2]
        exact ih hf
      · rw [if_neg hc]
        rw [List.find?_cons_of_neg _ hpa]
        exact ih hf

theorem valid_args_cond {pid sid : PyVal} {q : Int}
    (hp : pid.truthy = true) (hs : sid.truthy = true) (hq : 0 < q) :
    ¬ (¬ pid.truthy = true ∨ ¬ sid.truthy = true ∨ q ≤ 0) := by
  simp [hp, hs]
  omega

theorem reserve_found (store : List Inventory) {pid sid : PyVal} (q : Int)
    {inv : Inventory} (hp : pid.truthy = true) (hs : sid.truthy = true)
    (hq : 0 < q) (hf : findInv store pid sid = some inv) :
    reserve store pid sid (.int q) =
      if inv.available < q then (.insufficientAvailability, store)
      else (.ok { inv with reserved := inv.reserved + q },
            saveInv store { inv with reserved := inv.reserved + q }) := by
  simp only [reserve, pyInt_orZero_int]
  rw [if_neg (valid_args_cond hp hs hq)]
  simp only [hf]

theorem release_found (store : List Inventory) {pid sid : PyVal} (q : Int)
    {inv : Inventory} (hp : pid.truthy = true) (hs : sid.truthy = true)
    (hq : 0 < q) (hf : findInv store pid sid = some inv) :
    release store pid sid (.int q) =
      (.ok { inv with reserved := max (inv.reserved - q) 0 },
       saveInv store { inv with reserved := max (inv.reserved - q) 0 }) := by
  simp only [release, pyInt_orZero_int]
  rw [if_neg (valid_args_cond hp hs hq)]
  simp only [hf]

theorem commit_found (store : List Inventory) {pid sid : PyVal} (q : Int)
    {inv : Inventory} (hp : pid.truthy = true) (hs : sid.truthy = true)
    (hq : 0 < q) (hf : findInv store pid sid = some inv) :
    commit store pid sid (.int q) =
      if inv.reserved < q then (.insufficientReserved, store)
      else (.ok { inv with reserved := inv.reserved - q, stock := max (inv.stock - q) 0 },
            saveInv store { inv with reserved := inv.reserved - q,
                                     stock := max (inv.stock - q) 0 }) := by
  simp only [commit, pyInt_orZero_int]
  rw [if_neg (valid_args_cond hp hs hq)]
  simp only [hf]

theorem reserve_preserves (store : List Inventory) (p s qv : PyVal)
    (h : ∀ r ∈ store, Invariant r) :
    ∀ r ∈ (reserve store p s qv).2, Invariant r := by
  unfold reserve
  cases hq : pyInt (orZero qv) with
  | error e => exact h
  | ok qty =>
    dsimp only
    by_cases hv : ¬ p.truthy = true ∨ ¬ s.truthy = true ∨ qty ≤ 0
    · rw [if_pos hv]
      exact h
    · rw [if_neg hv]
      cases hf : findInv store p s with
      | none => exact h
      | some inv =>
        dsimp only
        by_cases ha : inv.available < qty
        · rw [if_pos ha]
          exact h
        · rw [if_neg ha]
          show ∀ r ∈ saveInv store { inv with reserved := inv.reserved + qty }, Invariant r
          refine invariant_saveInv h ?_
          have hi := h inv (mem_of_findInv hf)
          push_neg at hv
          unfold Invariant at hi ⊢
          unfold Inventory.available at ha
          simp only
          omega

theorem release_preserves (store : List Inventory) (p s qv : PyVal)
    (h : ∀ r ∈ store, Invariant r) :
    ∀ r ∈ (release store p s qv).2, Invariant r := by
  unfold release
  cases hq : pyInt (orZero qv) with
  | error e => exact h
  | ok qty =>
    dsimp only
    by_cases hv : ¬ p.truthy = true ∨ ¬ s.truthy = true ∨ qty ≤ 0
    · rw [if_pos hv]
      exact h
    · rw [if_neg hv]
      cases hf : findInv store p s with
      | none => exact h
      | some inv =>
        show ∀ r ∈ saveInv store { inv with reserved := max (inv.reserved - qty) 0 },
          Invariant r
        refine invariant_saveInv h ?_
        have hi := h inv (mem_of_findInv hf)
        unfold Invariant at hi ⊢
        simp only
        omega

theorem commit_preserves (store : List Inventory) (p s qv : PyVal)
    (h : ∀ r ∈ store, Invariant r) :
    ∀ r ∈ (commit store p s qv).2, Invariant r := by
  unfold commit
  cases hq : pyInt (orZero qv) with
  | error e => exact h
  | ok qty =>
    dsimp only
    by_cases hv : ¬ p.truthy = true ∨ ¬ s.truthy = true ∨ qty ≤ 0
    · rw [if_pos hv]
      exact h
    · rw [if_neg hv]
      cases hf : findInv store p s with
      | none => exact h
      | some inv =>
        dsimp only
        by_cases hr : inv.reserved < qty
        · rw [if_pos hr]
          exact h
        · rw [if_neg hr]
          show ∀ r ∈ saveInv store { inv with reserved := inv.reserved - qty,
                                              stock := max (inv.stock - qty) 0 },
            Invariant r
          refine invariant_saveInv h ?_
          have hi := h inv (mem_of_findInv hf)
          unfold Invariant at hi ⊢
          simp only
          omega

theorem applyCall_preserves (store : List Inventory) (c : Call)
    (h : ∀ r ∈ store, Invariant r) : ∀ r ∈ applyCall store c, Invariant r := by
  cases c with
  | callReserve p s q => exact reserve_preserves store p s q h
  | callRelease p s q => exact release_preserves store p s q h
  | callCommit p s q => exact commit_preserves store p s q h

theorem foldl_calls_preserve (calls : List Call) :
    ∀ store : List Inventory, (∀ r ∈ store, Invariant r) →
      ∀ r ∈ calls.foldl applyCall store, Invariant r := by
  induction calls with
  | nil =>
    intro store h
    simpa using h
  | cons c rest ih =>
    intro store h
    simp only [List.foldl_cons]
    exact ih (applyCall store c) (applyCall_preserves store c h)

/-! ## Claims -/

/-- C1: the atomicity the claim asserts is absent from the code:
`reserve` is an unguarded read-check-write, so on a record with stock 1
and reserved 0, two concurrent `reserve` calls of quantity 1 under the
interleaving read-read-write-write both succeed, although floor(S/q) = 1
of them should; a serialized schedule of the same two calls lets exactly
one succeed. -/
theorem reserve_race_two_succeed :
    successes (runSched 1 [0, 1, 0, 1]
      (⟨1, 1, 1, 0, 0⟩, [TState.start, TState.start])).2 = 2 ∧
    successes (runSched 1 [0, 0, 1, 1]
      (⟨1, 1, 1, 0, 0⟩, [TState.start, TState.start])).2 = 1 := by
  decide

/-- C2: starting from any store whose records satisfy
0 ≤ reserved ≤ stock, after every finite sequence of reserve, release
and commit calls (each succeeding or returning an error) every record
still satisfies 0 ≤ reserved ≤ stock and 0 ≤ stock. -/
theorem seq_calls_preserve_invariant (calls : List Call) (store : List Inventory)
    (h : ∀ r ∈ store, Invariant r) :
    ∀ r ∈ calls.foldl applyCall store, Invariant r ∧ 0 ≤ r.stock := by
  intro r hr
  have hi := foldl_calls_preserve calls store h r hr
  refine ⟨hi, ?_⟩
  unfold Invariant at hi
  omega

/-- C2 witness: a concrete store and call sequence. -/
theorem seq_calls_preserve_invariant_witness :
    (∀ r ∈ [(⟨1, 1, 5, 1, 0⟩ : Inventory)], Invariant r) ∧
    (∀ r ∈ [Call.callReserve (.int 1) (.int 1) (.int 2),
            Call.callCommit (.int 1) (.int 1) (.int 3),
            Call.callRelease (.int 1) (.int 1) (.int 9)].foldl applyCall
          [(⟨1, 1, 5, 1, 0⟩ : Inventory)],
       Invariant r ∧ 0 ≤ r.stock) :=
  ⟨by decide, seq_calls_preserve_invariant _ _ (by decide)⟩

/-- C3 counterexample: on a record with stock 1 and reserved 5 the
availability endpoint reports available = 0, not stock − reserved = −4:
the code clamps at zero, refuting "exactly, with no clamping". -/
theorem availability_clamped_cex :
    availabilityView [⟨7, 3, 1, 5, 0⟩] (.int 7) (.int 3) = .triple 0 1 5 ∧
    (1 : Int) - 5 ≠ 0 := by
  decide

/-- C3 amended: for every existing record, availability reports
available = max(stock − reserved, 0) together with stock and reserved
verbatim; the report equals stock − reserved exactly whenever
reserved ≤ stock. -/
theorem availability_reports_available (store : List Inventory) (pid sid : PyVal)
    (inv : Inventory) (hp : pid.truthy = true) (hs : sid.truthy = true)
    (hf : findInv store pid sid = some inv) :
    availabilityView store pid sid =
      .triple (max (inv.stock - inv.reserved) 0) inv.stock inv.reserved ∧
    (inv.reserved ≤ inv.stock →
      availabilityView store pid sid =
        .triple (inv.stock - inv.reserved) inv.stock inv.reserved) := by
  have hcond : ¬ (¬ pid.truthy = true ∨ ¬ sid.truthy = true) := by
    simp [hp, hs]
  have h1 : availabilityView store pid sid =
      .triple (max (inv.stock - inv.reserved) 0) inv.stock inv.reserved := by
    simp only [availabilityView]
    rw [if_neg hcond]
    simp only [hf, Inventory.available]
  refine ⟨h1, fun hle => ?_⟩
  rw [h1]
  have hmax : max (inv.stock - inv.reserved) 0 = inv.stock - inv.reserved := by
    omega
  rw [hmax]

/-- C3 amended witness: a concrete record with reserved ≤ stock. -/
theorem availability_reports_available_witness :
    availabilityView [⟨7, 3, 9, 4, 0⟩] (.int 7) (.int 3) =
      .triple ((9 : Int) - 4) 9 4 :=
  (availability_reports_available [⟨7, 3, 9, 4, 0⟩] (.int 7) (.int 3)
    ⟨7, 3, 9, 4, 0⟩ (by decide) (by decide) (by decide)).2 (by decide)

/-- C4 counterexample: lowering stock to 2 on a record with reserved 5
is accepted as-is — neither rejected nor clamped — leaving
reserved = 5 > stock = 2 after the call. -/
theorem update_stock_no_revalidate_cex :
    update_stock ⟨1, 1, 10, 5, 0⟩ (some (.int 2)) Option.none = .ok ⟨1, 1, 2, 5, 0⟩ ∧
    ¬ ((5 : Int) ≤ 2) := by
  decide

/-- C4 amended: update_stock installs the requested stock value verbatim
and leaves reserved untouched; it re-validates nothing, so an edit below
the current reserved goes through and violates reserved ≤ stock. -/
theorem update_stock_sets_stock_verbatim (inv : Inventory) (s : Int) :
    update_stock inv (some (.int s)) Option.none = .ok { inv with stock := s } := by
  simp [update_stock, pyInt, applyThreshold]

/-- C5 counterexample: a fractional quantity 5/2 is truncated by
`int(...)` to 2 and accepted (the record is mutated), and a non-numeric
quantity raises an uncaught ValueError; neither is the InvalidArgument
the claim requires. -/
theorem quantity_coercion_cex :
    reserve [⟨1, 1, 10, 0, 0⟩] (.int 1) (.int 1) (.float 5 2) =
      (.ok ⟨1, 1, 10, 2, 0⟩, [⟨1, 1, 10, 2, 0⟩]) ∧
    reserve [⟨1, 1, 10, 0, 0⟩] (.int 1) (.int 1) (.float 5 2) ≠
      (.invalidArgument, [⟨1, 1, 10, 0, 0⟩]) ∧
    reserve [⟨1, 1, 1, 0, 0⟩] (.int 1) (.int 1) (.str "abc") =
      (.uncaught .valueError, [⟨1, 1, 1, 0, 0⟩]) := by
  decide

/-- C5 amended: in reserve, release and commit, a quantity whose Python
int-coercion fails aborts with that uncaught error, and a missing or
falsy id or a coerced quantity ≤ 0 yields InvalidArgument; both happen
before any record lookup and in both cases the store is unmutated. -/
theorem argument_validation_amended (store : List Inventory) (pid sid qv : PyVal) :
    (∀ e, pyInt (orZero qv) = .error e →
      reserve store pid sid qv = (.uncaught e, store) ∧
      release store pid sid qv = (.uncaught e, store) ∧
      commit store pid sid qv = (.uncaught e, store)) ∧
    (∀ q : Int, pyInt (orZero qv) = .ok q →
      (¬ pid.truthy = true ∨ ¬ sid.truthy = true ∨ q ≤ 0) →
      reserve store pid sid qv = (.invalidArgument, store) ∧
      release store pid sid qv = (.invalidArgument, store) ∧
      commit store pid sid qv = (.invalidArgument, store)) := by
  constructor
  · intro e he
    refine ⟨?_, ?_, ?_⟩ <;> simp only [reserve, release, commit, he]
  · intro q hq hbad
    refine ⟨?_, ?_, ?_⟩ <;>
      · simp only [reserve, release, commit, hq]
        rw [if_pos hbad]

/-- C5 amended witness: an uncaught coercion error and an invalid-id
rejection at concrete inputs. -/
theorem argument_validation_amended_witness :
    reserve [] (.int 1) (.int 1) (.str "zz") = (.uncaught .valueError, []) ∧
    commit [] (.int 1) (.int 1) (.int 0) = (.invalidArgument, []) :=
  ⟨((argument_validation_amended [] (.int 1) (.int 1) (.str "zz")).1
      .valueError (by decide)).1,
   ((argument_validation_amended [] (.int 1) (.int 1) (.int 0)).2
      0 (by decide) (by decide)).2.2⟩

/-- C6: with valid arguments, reserve on a missing record yields
NotFound; on an existing record with available < quantity it yields
InsufficientAvailability; the two outcomes are distinct values and are
never conflated. -/
theorem reserve_notfound_vs_insufficient (store : List Inventory) (pid sid : PyVal)
    (q : Int) (hp : pid.truthy = true) (hs : sid.truthy = true) (hq : 0 < q) :
    (findInv store pid sid = Option.none →
      reserve store pid sid (.int q) = (.notFound, store)) ∧
    (∀ inv, findInv store pid sid = some inv → inv.available < q →
      reserve store pid sid (.int q) = (.insufficientAvailability, store)) ∧
    (RRes.notFound : RRes) ≠ .insufficientAvailability := by
  refine ⟨?_, ?_, by decide⟩
  · intro hnone
    simp only [reserve, pyInt_orZero_int]
    rw [if_neg (valid_args_cond hp hs hq)]
    simp only [hnone]
  · intro inv hf hlt
    rw [reserve_found store q hp hs hq hf, if_pos hlt]

/-- C6 witness: NotFound on an empty store, InsufficientAvailability on
a record with available 2 and quantity 5. -/
theorem reserve_notfound_vs_insufficient_witness :
    reserve [] (.int 1) (.int 1) (.int 5) = (.notFound, []) ∧
    reserve [⟨1, 1, 2, 0, 0⟩] (.int 1) (.int 1) (.int 5) =
      (.insufficientAvailability, [⟨1, 1, 2, 0, 0⟩]) :=
  ⟨(reserve_notfound_vs_insufficient [] (.int 1) (.int 1) 5
      (by decide) (by decide) (by decide)).1 (by decide),
   (reserve_notfound_vs_insufficient [⟨1, 1, 2, 0, 0⟩] (.int 1) (.int 1) 5
      (by decide) (by decide) (by decide)).2.1 ⟨1, 1, 2, 0, 0⟩
      (by decide) (by decide)⟩

/-- C7: on an existing record with qty > 0, commit with reserved ≥ qty
sets reserved to reserved − qty and stock to max(stock − qty, 0); with
reserved < qty it returns InsufficientReserved and leaves the store
unchanged. -/
theorem commit_spec (store : List Inventory) (pid sid : PyVal) (q : Int)
    (inv : Inventory) (hp : pid.truthy = true) (hs : sid.truthy = true)
    (hq : 0 < q) (hf : findInv store pid sid = some inv) :
    (q ≤ inv.reserved →
      commit store pid sid (.int q) =
        (.ok { inv with reserved := inv.reserved - q, stock := max (inv.stock - q) 0 },
         saveInv store { inv with reserved := inv.reserved - q,
                                  stock := max (inv.stock - q) 0 })) ∧
    (inv.reserved < q →
      commit store pid sid (.int q) = (.insufficientReserved, store)) := by
  have hc := commit_found store q hp hs hq hf
  constructor
  · intro hge
    rw [hc, if_neg (by omega)]
  · intro hlt
    rw [hc, if_pos hlt]

/-- C7 witness: stock 10, reserved 4, commit of 4 gives stock 6,
reserved 0. -/
theorem commit_spec_witness :
    commit [⟨1, 1, 10, 4, 0⟩] (.int 1) (.int 1) (.int 4) =
      (.ok ⟨1, 1, 6, 0, 0⟩, [⟨1, 1, 6, 0, 0⟩]) := by
  have h := (commit_spec [⟨1, 1, 10, 4, 0⟩] (.int 1) (.int 1) 4 ⟨1, 1, 10, 4, 0⟩
    (by decide) (by decide) (by decide) (by decide)).1 (by decide)
  rw [h]
  decide

/-- C8: release on an existing record with qty > 0 always succeeds and
clamps: reserved becomes max(reserved − qty, 0), which is never
negative. -/
theorem release_spec (store : List Inventory) (pid sid : PyVal) (q : Int)
    (inv : Inventory) (hp : pid.truthy = true) (hs : sid.truthy = true)
    (hq : 0 < q) (hf : findInv store pid sid = some inv) :
    release store pid sid (.int q) =
      (.ok { inv with reserved := max (inv.reserved - q) 0 },
       saveInv store { inv with reserved := max (inv.reserved - q) 0 }) ∧
    0 ≤ ({ inv with reserved := max (inv.reserved - q) 0 } : Inventory).reserved := by
  refine ⟨release_found store q hp hs hq hf, ?_⟩
  show (0 : Int) ≤ max (inv.reserved - q) 0
  omega

/-- C8 witness: releasing 100 from a record with reserved 3 yields
reserved 0. -/
theorem release_spec_witness :
    release [⟨1, 1, 10, 3, 0⟩] (.int 1) (.int 1) (.int 100) =
      (.ok ⟨1, 1, 10, 0, 0⟩, [⟨1, 1, 10, 0, 0⟩]) := by
  have h := (release_spec [⟨1, 1, 10, 3, 0⟩] (.int 1) (.int 1) 100 ⟨1, 1, 10, 3, 0⟩
    (by decide) (by decide) (by decide) (by decide)).1
  rw [h]
  decide

/-- C9: on a record satisfying 0 ≤ reserved ≤ stock, a successful
reserve of q followed by a release of q restores reserved to exactly its
prior value and leaves stock — indeed the whole record — unchanged, with
stock also untouched in the intermediate state. -/
theorem reserve_release_round_trip (store : List Inventory) (pid sid : PyVal)
    (q : Int) (inv : Inventory) (hinv : Invariant inv)
    (hp : pid.truthy = true) (hs : sid.truthy = true) (hq : 0 < q)
    (hf : findInv store pid sid = some inv) (hav : q ≤ inv.available) :
    findInv (reserve store pid sid (.int q)).2 pid sid =
      some { inv with reserved := inv.reserved + q } ∧
    findInv (release (reserve store pid sid (.int q)).2 pid sid (.int q)).2 pid sid =
      some inv := by
  obtain ⟨ip, isd, ist, irv, ith⟩ := inv
  obtain ⟨hr0, hrs⟩ := hinv
  simp only [Inventory.available] at hav
  dsimp only at hr0 hrs
  have hres := reserve_found store q hp hs hq hf
  rw [if_neg (by simp only [Inventory.available]; omega)] at hres
  dsimp only at hres
  have hf1 : findInv (saveInv store ⟨ip, isd, ist, irv + q, ith⟩) pid sid =
      some ⟨ip, isd, ist, irv + q, ith⟩ :=
    @findInv_saveInv pid sid ⟨ip, isd, ist, irv, ith⟩ ⟨ip, isd, ist, irv + q, ith⟩
      rfl rfl store hf
  constructor
  · rw [hres]
    exact hf1
  · rw [hres]
    dsimp only
    have hrel := release_found (saveInv store ⟨ip, isd, ist, irv + q, ith⟩)
      q hp hs hq hf1
    dsimp only at hrel
    have hmax : max (irv + q - q) 0 = irv := by omega
    rw [hmax] at hrel
    rw [hrel]
    dsimp only
    exact @findInv_saveInv pid sid ⟨ip, isd, ist, irv + q, ith⟩ ⟨ip, isd, ist, irv, ith⟩
      rfl rfl _ hf1

/-- C9 witness: stock 10, reserved 2, reserve 5 then release 5. -/
theorem reserve_release_round_trip_witness :
    findInv (reserve [⟨1, 1, 10, 2, 0⟩] (.int 1) (.int 1) (.int 5)).2
      (.int 1) (.int 1) = some ⟨1, 1, 10, 7, 0⟩ ∧
    findInv (release (reserve [⟨1, 1, 10, 2, 0⟩] (.int 1) (.int 1) (.int 5)).2
      (.int 1) (.int 1) (.int 5)).2 (.int 1) (.int 1) = some ⟨1, 1, 10, 2, 0⟩ :=
  reserve_release_round_trip [⟨1, 1, 10, 2, 0⟩] (.int 1) (.int 1) 5 ⟨1, 1, 10, 2, 0⟩
    (by decide) (by decide) (by decide) (by decide) (by decide) (by decide)

/-- C10: a zero product_id or shop_id is falsy in Python, so reserve,
release and commit all reject it as a validation failure, before any
lookup and with the store unmutated, even when a record with id 0
exists; the quantity coercion is assumed to succeed (it runs first). -/
theorem zero_id_is_invalid (store : List Inventory) (other qv : PyVal) (q : Int)
    (hq : pyInt (orZero qv) = .ok q) :
    reserve store (.int 0) other qv = (.invalidArgument, store) ∧
    release store (.int 0) other qv = (.invalidArgument, store) ∧
    commit store (.int 0) other qv = (.invalidArgument, store) ∧
    reserve store other (.int 0) qv = (.invalidArgument, store) ∧
    release store other (.int 0) qv = (.invalidArgument, store) ∧
    commit store other (.int 0) qv = (.invalidArgument, store) := by
  refine ⟨?_, ?_, ?_, ?_, ?_, ?_⟩ <;>
    · simp only [reserve, release, commit, hq]
      rw [if_pos (by simp [PyVal.truthy])]

/-- C10 witness: a record with product_id 0 exists, yet reserve with
product_id 0 is rejected and the store is unchanged. -/
theorem zero_id_is_invalid_witness :
    reserve [⟨0, 5, 10, 0, 0⟩] (.int 0) (.int 5) (.int 3) =
      (.invalidArgument, [⟨0, 5, 10, 0, 0⟩]) :=
  (zero_id_is_invalid [⟨0, 5, 10, 0, 0⟩] (.int 5) (.int 3) 3 (by decide)).1

end InventoryService
